import Mathlib

/-!
Shallow embedding of the ComfyUI-ImageResolutionFixer node
(src/image_resolution_fixer.py) and verification of its specification.

Images are modelled as a width, a height and a total pixel function; the
PIL / OpenCV resampling primitive is modelled as a capability parameter
(`Resizer`) constrained only by the laws the strategies rely on (output
dimensions are the requested ones; resizing an image to its own size is
the identity, which is PIL's documented fast path).  Rational arithmetic
stands in for Python float arithmetic; `Int.floor` models Python `int()`
truncation on the nonnegative values that occur here.
-/

namespace ImageResolutionFixer

/-- One 8-bit RGB pixel: a value per channel, as produced by the
`astype(np.uint8)` conversion in `resize_image`. -/
def Pix : Type := Fin 3 → Fin 256

instance : DecidableEq Pix := by
  unfold Pix
  infer_instance

/-- The black background used by `Image.new('RGB', ..., (0, 0, 0))`. -/
def black : Pix := fun _ => 0

/-- A 2-D image: dimensions plus a total pixel-lookup function
(values outside the width/height window are irrelevant junk). -/
structure Img (α : Type) where
  width : Nat
  height : Nat
  pix : Nat → Nat → α

/-- Extensional image equality: same dimensions and same pixels inside
the bounds. -/
def Img.eqv {α : Type} (a b : Img α) : Prop :=
  a.width = b.width ∧ a.height = b.height ∧
  ∀ x, x < a.width → ∀ y, y < a.height → a.pix x y = b.pix x y

/-- The PIL resampling filters reachable from the node's `method_map`. -/
inductive Filter : Type where
  | lanczos
  | bicubic
  | hamming
  | bilinear
  | box
  | nearest
deriving DecidableEq

/-- The `method_map` dictionary of `get_resampling_method`. -/
def method_map : List (String × Filter) :=
  [("lanczos", Filter.lanczos), ("bicubic", Filter.bicubic),
   ("hamming", Filter.hamming), ("bilinear", Filter.bilinear),
   ("box", Filter.box), ("nearest", Filter.nearest)]

/-- `get_resampling_method`: `method_map.get(method_name, Image.Resampling.LANCZOS)` —
a dictionary lookup with LANCZOS as the default for unrecognized names. -/
def get_resampling_method (method_name : String) : Filter :=
  (method_map.lookup method_name).getD Filter.lanczos

/-- The `round_to_multiple` option list of `INPUT_TYPES`. -/
def allowedMultiples : List Nat := [2, 4, 8, 14, 16, 28, 32, 64, 128, 256, 512]

/-- The recognized `fit` option strings of `INPUT_TYPES`. -/
def allowedFits : List String := ["smart_fill", "letterbox", "crop", "fill"]

/-- The recognized `method` option strings of `INPUT_TYPES`. -/
def allowedMethods : List String :=
  ["lanczos", "bicubic", "hamming", "bilinear", "box", "nearest"]

/-- `round_to_multiple`: `int(math.ceil(value / multiple) * multiple)`,
with exact rational arithmetic standing in for Python floats. -/
def round_to_multiple (value multiple : Nat) : Nat :=
  (⌈(value : ℚ) / (multiple : ℚ)⌉ * (multiple : ℤ)).toNat

/-- `calculate_target_dimensions`: round width and height independently. -/
def calculate_target_dimensions (orig_width orig_height round_multiple : Nat) :
    Nat × Nat :=
  (round_to_multiple orig_width round_multiple,
   round_to_multiple orig_height round_multiple)

/-- The scale-to-fit factor `min(target_width / orig_width, target_height / orig_height)`
shared by `resize_letterbox` and `resize_smart_fill`. -/
def scaleFit (ow oh tw th : Nat) : ℚ :=
  min ((tw : ℚ) / (ow : ℚ)) ((th : ℚ) / (oh : ℚ))

/-- The scale-to-cover factor `max(target_width / orig_width, target_height / orig_height)`
of `resize_crop`. -/
def scaleCover (ow oh tw th : Nat) : ℚ :=
  max ((tw : ℚ) / (ow : ℚ)) ((th : ℚ) / (oh : ℚ))

/-- `int(dimension * scale)`: Python `int()` truncation, which is `floor`
on the nonnegative values arising here. -/
def scaledDim (d : Nat) (s : ℚ) : Nat :=
  (⌊(d : ℚ) * s⌋).toNat

/-- The `(new_width, new_height)` pair computed by `resize_letterbox`. -/
def letterboxScaled (ow oh tw th : Nat) : Nat × Nat :=
  (scaledDim ow (scaleFit ow oh tw th), scaledDim oh (scaleFit ow oh tw th))

/-- The `(new_width, new_height)` pair computed by `resize_smart_fill`. -/
def smartFillScaled (ow oh tw th : Nat) : Nat × Nat :=
  (scaledDim ow (scaleFit ow oh tw th), scaledDim oh (scaleFit ow oh tw th))

/-- The `(new_width, new_height)` pair computed by `resize_crop`. -/
def cropScaled (ow oh tw th : Nat) : Nat × Nat :=
  (scaledDim ow (scaleCover ow oh tw th), scaledDim oh (scaleCover ow oh tw th))

/-- Scaled dimensions as the specification words them for Letterbox:
`(round(src_w*s), round(src_h*s))` with banker-free rounding `round`.
Written from the spec only, to be compared with `letterboxScaled`. -/
def letterboxScaledSpec (ow oh tw th : Nat) : ℤ × ℤ :=
  (round ((ow : ℚ) * scaleFit ow oh tw th),
   round ((oh : ℚ) * scaleFit ow oh tw th))

/-- The resampling primitive `pil_image.resize((w, h), resampling)`,
treated as a capability interface. -/
abbrev Resizer : Type := Filter → Img Pix → Nat → Nat → Img Pix

/-- `Image.new('RGB', (cw, ch), (0,0,0))` followed by
`result.paste(content, (px, py))`. -/
def pasteCenter (cw ch : Nat) (content : Img Pix) (px py : Nat) : Img Pix :=
  { width := cw, height := ch,
    pix := fun x y =>
      if px ≤ x ∧ x < px + content.width ∧ py ≤ y ∧ y < py + content.height
      then content.pix (x - px) (y - py) else black }

/-- `resize_letterbox`: scale to fit, then paste centered on a black canvas. -/
def resize_letterbox (R : Resizer) (resampling : Filter) (img : Img Pix)
    (tw th : Nat) : Img Pix :=
  pasteCenter tw th
    (R resampling img (letterboxScaled img.width img.height tw th).1
      (letterboxScaled img.width img.height tw th).2)
    ((tw - (letterboxScaled img.width img.height tw th).1) / 2)
    ((th - (letterboxScaled img.width img.height tw th).2) / 2)

/-- `resized.crop((left, top, left + tw, top + th))`: a `tw × th` window
whose origin is `(left, top)` in the source. -/
def cropRegion (src : Img Pix) (left top w h : Nat) : Img Pix :=
  { width := w, height := h,
    pix := fun x y => src.pix (x + left) (y + top) }

/-- `resize_crop`: scale to cover, then center-crop to the target. -/
def resize_crop (R : Resizer) (resampling : Filter) (img : Img Pix)
    (tw th : Nat) : Img Pix :=
  cropRegion
    (R resampling img (cropScaled img.width img.height tw th).1
      (cropScaled img.width img.height tw th).2)
    (((cropScaled img.width img.height tw th).1 - tw) / 2)
    (((cropScaled img.width img.height tw th).2 - th) / 2)
    tw th

/-- `resize_fill`: a direct stretch to the target dimensions. -/
def resize_fill (R : Resizer) (resampling : Filter) (img : Img Pix)
    (tw th : Nat) : Img Pix :=
  R resampling img tw th

/-- OpenCV `borderInterpolate(p, n, BORDER_REFLECT_101)` in closed form:
`gfedcb|abcdefgh|gfedcba` mirroring that does not repeat the edge pixel,
periodic with period `2n - 2`; a single-pixel extent maps everything to 0. -/
def reflect101 (n : Nat) (p : Int) : Nat :=
  if n ≤ 1 then 0
  else if (p % (2 * (n : Int) - 2)).toNat < n then (p % (2 * (n : Int) - 2)).toNat
  else 2 * n - 2 - (p % (2 * (n : Int) - 2)).toNat

/-- `cv2.copyMakeBorder(img, top, bottom, left, right, cv2.BORDER_REFLECT_101)`. -/
def copyMakeBorder (img : Img Pix) (top bottom left right : Nat) : Img Pix :=
  { width := left + img.width + right,
    height := top + img.height + bottom,
    pix := fun x y =>
      img.pix (reflect101 img.width ((x : Int) - (left : Int)))
        (reflect101 img.height ((y : Int) - (top : Int))) }

/-- `resize_smart_fill`: scale to fit exactly as letterbox does, then fill
the missing border by reflect-101 mirroring, splitting the padding as
`top = pad_h//2, bottom = pad_h - top, left = pad_w//2, right = pad_w - left`. -/
def resize_smart_fill (R : Resizer) (resampling : Filter) (img : Img Pix)
    (tw th : Nat) : Img Pix :=
  copyMakeBorder
    (R resampling img (smartFillScaled img.width img.height tw th).1
      (smartFillScaled img.width img.height tw th).2)
    ((th - (smartFillScaled img.width img.height tw th).2) / 2)
    ((th - (smartFillScaled img.width img.height tw th).2) -
      (th - (smartFillScaled img.width img.height tw th).2) / 2)
    ((tw - (smartFillScaled img.width img.height tw th).1) / 2)
    ((tw - (smartFillScaled img.width img.height tw th).1) -
      (tw - (smartFillScaled img.width img.height tw th).1) / 2)

/-- One float pixel of a ComfyUI tensor image: a rational per RGB channel. -/
def QPix : Type := Fin 3 → ℚ

/-- A ComfyUI tensor image (one batch element), values nominally in `[0, 1]`. -/
abbrev QImg : Type := Img QPix

/-- One channel value of `(img * 255).astype(np.uint8)`: truncation of
`q * 255`, clamped into the byte range for totality (the clamp is inert on
the `[0, 1]` inputs the node receives). -/
def toU8 (q : ℚ) : Fin 256 :=
  ⟨min (⌊q * 255⌋).toNat 255, by omega⟩

/-- `Image.fromarray((img * 255).astype(np.uint8))`. -/
def toU8img (img : QImg) : Img Pix :=
  { width := img.width, height := img.height,
    pix := fun x y c => toU8 (img.pix x y c) }

/-- `np.array(result_image).astype(np.float32) / 255.0`. -/
def fromU8img (img : Img Pix) : QImg :=
  { width := img.width, height := img.height,
    pix := fun x y c => ((img.pix x y c : Fin 256) : ℚ) / 255 }

/-- The `if fit == ... / elif ...` strategy dispatch of `resize_image`,
restricted to the recognized branches. -/
def applyFit (R : Resizer) (fit : String) (resampling : Filter)
    (img : Img Pix) (tw th : Nat) : Img Pix :=
  if fit = "letterbox" then resize_letterbox R resampling img tw th
  else if fit = "crop" then resize_crop R resampling img tw th
  else if fit = "fill" then resize_fill R resampling img tw th
  else resize_smart_fill R resampling img tw th

/-- The full `if/elif` chain: an unrecognized `fit` leaves `result_image`
unassigned, so the call raises — modelled as `none`. -/
def dispatchFit (R : Resizer) (fit : String) (resampling : Filter)
    (img : Img Pix) (tw th : Nat) : Option (Img Pix) :=
  if fit = "letterbox" ∨ fit = "crop" ∨ fit = "fill" ∨ fit = "smart_fill"
  then some (applyFit R fit resampling img tw th)
  else none

/-- One iteration of the `for i in range(batch_size)` loop of `resize_image`:
convert to 8-bit, compute this image's target, dispatch the strategy, convert
back, append to `results` and overwrite the loop-scoped target variables. -/
def stepImg (R : Resizer) (fit method : String) (m : Nat)
    (acc : Option (List QImg × Nat × Nat)) (img : QImg) :
    Option (List QImg × Nat × Nat) :=
  acc.bind fun r =>
    (dispatchFit R fit (get_resampling_method method) (toU8img img)
        (calculate_target_dimensions (toU8img img).width (toU8img img).height m).1
        (calculate_target_dimensions (toU8img img).width (toU8img img).height m).2).map
      fun res =>
        (r.1 ++ [fromU8img res],
         (calculate_target_dimensions (toU8img img).width (toU8img img).height m).1,
         (calculate_target_dimensions (toU8img img).width (toU8img img).height m).2)

/-- `resize_image`, the node entry point: loop over the batch, then return
the stacked results together with the last iteration's target dimensions.
An empty batch makes both `torch.stack` and the final width/height reads
fail, hence `none`. -/
def resize_image (R : Resizer) (image : List QImg) (fit method : String)
    (m : Nat) : Option (List QImg × Nat × Nat) :=
  match image with
  | [] => none
  | _ :: _ => image.foldl (stepImg R fit method m) (some ([], 0, 0))

/-- The per-image normalization performed by one loop iteration of
`resize_image` when `fit` is recognized. -/
def oneImg (R : Resizer) (fit method : String) (m : Nat) (img : QImg) : QImg :=
  fromU8img (applyFit R fit (get_resampling_method method) (toU8img img)
    (calculate_target_dimensions img.width img.height m).1
    (calculate_target_dimensions img.width img.height m).2)

/-- The target dimensions one loop iteration writes into the loop-scoped
`target_width` / `target_height` variables. -/
def targetDims (m : Nat) (img : QImg) : Nat × Nat :=
  calculate_target_dimensions img.width img.height m

/-- A concrete nearest-neighbour resampler used to instantiate the
`Resizer` capability in witnesses; it honours PIL's same-size fast path. -/
def resizeNearest : Resizer := fun _ img w h =>
  if w = img.width ∧ h = img.height then img
  else
    { width := w, height := h,
      pix := fun x y => img.pix (x * img.width / w) (y * img.height / h) }

/-- A concrete all-white 5×3 8-bit image. -/
def white53 : Img Pix :=
  { width := 5, height := 3, pix := fun _ _ => fun _ => 255 }

/-- A concrete 3×3 8-bit image whose pixel encodes its row, so rows are
distinguishable when checking the mirrored border. -/
def rows33 : Img Pix :=
  { width := 3, height := 3, pix := fun _ y => fun _ => Fin.ofNat y }

/-- A concrete all-grey 100×50 8-bit image (the spec's scenario size). -/
def white10050 : Img Pix :=
  { width := 100, height := 50, pix := fun _ _ => fun _ => 200 }

/-- A concrete one-pixel tensor image with value 1/2 on every channel. -/
def qHalf11 : QImg :=
  { width := 1, height := 1, pix := fun _ _ _ => 1 / 2 }

/-- A concrete 2×2 tensor image. -/
def qQuad22 : QImg :=
  { width := 2, height := 2, pix := fun x y _ => (x + y : ℚ) / 4 }

/- ------------------------------------------------------------------ -/
/- Arithmetic lemmas about the dimension rounder.                      -/
/- ------------------------------------------------------------------ -/

theorem ceil_as_neg_floor (a : ℚ) : ⌈a⌉ = -⌊-a⌋ := by
  rw [Int.floor_neg, neg_neg]

theorem round_to_multiple_as_mul (v m : Nat) :
    round_to_multiple v m = (⌈(v : ℚ) / (m : ℚ)⌉).toNat * m := by
  unfold round_to_multiple
  have h0 : 0 ≤ ⌈(v : ℚ) / (m : ℚ)⌉ :=
    Int.ceil_nonneg (by positivity)
  obtain ⟨k, hk⟩ := Int.eq_ofNat_of_zero_le h0
  rw [hk]
  have h1 : ((k * m : ℕ) : ℤ) = (k : ℤ) * (m : ℤ) := by push_cast; ring
  rw [← h1, Int.toNat_natCast]
  simp

theorem round_to_multiple_ge (v m : Nat) (hm : 0 < m) :
    v ≤ round_to_multiple v m := by
  rw [round_to_multiple_as_mul]
  have hmq : (0 : ℚ) < (m : ℚ) := by exact_mod_cast hm
  have h1 : (v : ℚ) / (m : ℚ) ≤ (⌈(v : ℚ) / (m : ℚ)⌉ : ℚ) := Int.le_ceil _
  have h0 : 0 ≤ ⌈(v : ℚ) / (m : ℚ)⌉ := Int.ceil_nonneg (by positivity)
  obtain ⟨k, hk⟩ := Int.eq_ofNat_of_zero_le h0
  rw [hk]
  rw [hk] at h1
  have h2 : (v : ℚ) ≤ (k : ℚ) * (m : ℚ) := by
    rw [div_le_iff₀ hmq] at h1
    exact_mod_cast h1
  have h3 : v ≤ k * m := by exact_mod_cast h2
  simpa using h3

theorem round_to_multiple_lt (v m : Nat) (hm : 0 < m) :
    round_to_multiple v m < v + m := by
  rw [round_to_multiple_as_mul]
  have hmq : (0 : ℚ) < (m : ℚ) := by exact_mod_cast hm
  have h1 : (⌈(v : ℚ) / (m : ℚ)⌉ : ℚ) < (v : ℚ) / (m : ℚ) + 1 :=
    Int.ceil_lt_add_one _
  have h0 : 0 ≤ ⌈(v : ℚ) / (m : ℚ)⌉ := Int.ceil_nonneg (by positivity)
  obtain ⟨k, hk⟩ := Int.eq_ofNat_of_zero_le h0
  rw [hk]
  rw [hk] at h1
  have h2 : (k : ℚ) * (m : ℚ) < (v : ℚ) + (m : ℚ) := by
    have h3 : ((v : ℚ) / (m : ℚ) + 1) * (m : ℚ) = (v : ℚ) + (m : ℚ) := by
      field_simp
    calc (k : ℚ) * (m : ℚ) < ((v : ℚ) / (m : ℚ) + 1) * (m : ℚ) := by
          exact mul_lt_mul_of_pos_right h1 hmq
      _ = (v : ℚ) + (m : ℚ) := h3
  have h4 : k * m < v + m := by exact_mod_cast h2
  simpa using h4

theorem round_to_multiple_min (v m y : Nat) (hm : 0 < m)
    (hdvd : m ∣ y) (hy : v ≤ y) : round_to_multiple v m ≤ y := by
  rw [round_to_multiple_as_mul]
  obtain ⟨j, hj⟩ := hdvd
  have hmq : (0 : ℚ) < (m : ℚ) := by exact_mod_cast hm
  have h1 : (v : ℚ) / (m : ℚ) ≤ (j : ℚ) := by
    rw [div_le_iff₀ hmq]
    have : (v : ℚ) ≤ ((m * j : Nat) : ℚ) := by exact_mod_cast hj ▸ hy
    push_cast at this
    linarith
  have h2 : ⌈(v : ℚ) / (m : ℚ)⌉ ≤ (j : ℤ) := Int.ceil_le.mpr (by exact_mod_cast h1)
  have h0 : 0 ≤ ⌈(v : ℚ) / (m : ℚ)⌉ := Int.ceil_nonneg (by positivity)
  obtain ⟨k, hk⟩ := Int.eq_ofNat_of_zero_le h0
  rw [hk]
  rw [hk] at h2
  have h3 : k ≤ j := by exact_mod_cast h2
  have h4 : ((k : ℤ)).toNat = k := by simp
  rw [h4]
  calc k * m ≤ j * m := Nat.mul_le_mul_right m h3
    _ = y := by rw [Nat.mul_comm]; exact hj.symm

theorem round_to_multiple_dvd (v m : Nat) :
    m ∣ round_to_multiple v m := by
  rw [round_to_multiple_as_mul]
  exact Dvd.intro_left _ rfl

theorem round_to_multiple_noop (v m : Nat) (hm : 0 < m) (h : v % m = 0) :
    round_to_multiple v m = v := by
  have h1 := round_to_multiple_ge v m hm
  have h2 := round_to_multiple_min v m v hm (Nat.dvd_of_mod_eq_zero h) le_rfl
  omega

theorem allowedMultiples_pos : ∀ m ∈ allowedMultiples, 0 < m := by decide

/-- Claim C1: for every positive source dimension `d` and every multiple `m`
in the allowed set, `round_to_multiple d m` is the smallest multiple of `m`
that is `≥ d`: it is divisible by `m`, is `≥ d`, satisfies
`round_to_multiple d m - m < d`, equals `d` whenever `d` is already a
multiple of `m`, and is below every multiple of `m` that is `≥ d`. -/
theorem c1_round_to_multiple (d m : Nat) (hd : 0 < d)
    (hm : m ∈ allowedMultiples) :
    round_to_multiple d m % m = 0 ∧
    d ≤ round_to_multiple d m ∧
    round_to_multiple d m - m < d ∧
    (d % m = 0 → round_to_multiple d m = d) ∧
    ∀ y : Nat, m ∣ y → d ≤ y → round_to_multiple d m ≤ y := by
  have hm0 : 0 < m := allowedMultiples_pos m hm
  have hdvd := round_to_multiple_dvd d m
  have hge := round_to_multiple_ge d m hm0
  have hlt := round_to_multiple_lt d m hm0
  exact ⟨Nat.mod_eq_zero_of_dvd hdvd, hge, by omega,
    round_to_multiple_noop d m hm0,
    fun y hy hdy => round_to_multiple_min d m y hm0 hy hdy⟩

/-- Witness for C1 at `d = 100`, `m = 16` (target 112, the spec scenario). -/
theorem c1_round_to_multiple_witness :
    0 < 100 ∧ 16 ∈ allowedMultiples ∧
    (round_to_multiple 100 16 % 16 = 0 ∧
     100 ≤ round_to_multiple 100 16 ∧
     round_to_multiple 100 16 - 16 < 100 ∧
     (100 % 16 = 0 → round_to_multiple 100 16 = 100) ∧
     ∀ y : Nat, 16 ∣ y → 100 ≤ y → round_to_multiple 100 16 ≤ y) :=
  ⟨by decide, by decide, c1_round_to_multiple 100 16 (by decide) (by decide)⟩

/- ------------------------------------------------------------------ -/
/- Lemmas about the scale factors and scaled dimensions.               -/
/- ------------------------------------------------------------------ -/

theorem scaleFit_w_le (ow oh tw th : Nat) (how : 0 < ow) :
    (ow : ℚ) * scaleFit ow oh tw th ≤ (tw : ℚ) := by
  have h2 : (0 : ℚ) < (ow : ℚ) := by exact_mod_cast how
  calc (ow : ℚ) * scaleFit ow oh tw th
      ≤ (ow : ℚ) * ((tw : ℚ) / (ow : ℚ)) :=
        mul_le_mul_of_nonneg_left (min_le_left _ _) (le_of_lt h2)
    _ = (tw : ℚ) := by field_simp

theorem scaleFit_h_le (ow oh tw th : Nat) (hoh : 0 < oh) :
    (oh : ℚ) * scaleFit ow oh tw th ≤ (th : ℚ) := by
  have h2 : (0 : ℚ) < (oh : ℚ) := by exact_mod_cast hoh
  calc (oh : ℚ) * scaleFit ow oh tw th
      ≤ (oh : ℚ) * ((th : ℚ) / (oh : ℚ)) :=
        mul_le_mul_of_nonneg_left (min_le_right _ _) (le_of_lt h2)
    _ = (th : ℚ) := by field_simp

theorem scaleCover_w_ge (ow oh tw th : Nat) (how : 0 < ow) :
    (tw : ℚ) ≤ (ow : ℚ) * scaleCover ow oh tw th := by
  have h2 : (0 : ℚ) < (ow : ℚ) := by exact_mod_cast how
  calc (tw : ℚ) = (ow : ℚ) * ((tw : ℚ) / (ow : ℚ)) := by field_simp
    _ ≤ (ow : ℚ) * scaleCover ow oh tw th :=
        mul_le_mul_of_nonneg_left (le_max_left _ _) (le_of_lt h2)

theorem scaleCover_h_ge (ow oh tw th : Nat) (hoh : 0 < oh) :
    (th : ℚ) ≤ (oh : ℚ) * scaleCover ow oh tw th := by
  have h2 : (0 : ℚ) < (oh : ℚ) := by exact_mod_cast hoh
  calc (th : ℚ) = (oh : ℚ) * ((th : ℚ) / (oh : ℚ)) := by field_simp
    _ ≤ (oh : ℚ) * scaleCover ow oh tw th :=
        mul_le_mul_of_nonneg_left (le_max_right _ _) (le_of_lt h2)

theorem scaledDim_le_of (d t : Nat) (s : ℚ) (h : (d : ℚ) * s ≤ (t : ℚ)) :
    scaledDim d s ≤ t := by
  unfold scaledDim
  have h1 : ⌊(d : ℚ) * s⌋ ≤ ⌊(t : ℚ)⌋ := Int.floor_le_floor h
  rw [Int.floor_natCast] at h1
  omega

theorem le_scaledDim_of (d t : Nat) (s : ℚ) (h : (t : ℚ) ≤ (d : ℚ) * s) :
    t ≤ scaledDim d s := by
  unfold scaledDim
  have h1 : (t : ℤ) ≤ ⌊(d : ℚ) * s⌋ := Int.le_floor.mpr (by exact_mod_cast h)
  omega

theorem scaleFit_self (w h : Nat) (hw : 0 < w) (hh : 0 < h) :
    scaleFit w h w h = 1 := by
  unfold scaleFit
  rw [div_self (by exact_mod_cast hw.ne' : (w : ℚ) ≠ 0),
    div_self (by exact_mod_cast hh.ne' : (h : ℚ) ≠ 0), min_self]

theorem scaleCover_self (w h : Nat) (hw : 0 < w) (hh : 0 < h) :
    scaleCover w h w h = 1 := by
  unfold scaleCover
  rw [div_self (by exact_mod_cast hw.ne' : (w : ℚ) ≠ 0),
    div_self (by exact_mod_cast hh.ne' : (h : ℚ) ≠ 0), max_self]

theorem scaledDim_one (d : Nat) : scaledDim d 1 = d := by
  unfold scaledDim
  rw [mul_one, Int.floor_natCast, Int.toNat_natCast]

theorem letterboxScaled_w_le (ow oh tw th : Nat) (how : 0 < ow) :
    (letterboxScaled ow oh tw th).1 ≤ tw :=
  scaledDim_le_of ow tw _ (scaleFit_w_le ow oh tw th how)

theorem letterboxScaled_h_le (ow oh tw th : Nat) (hoh : 0 < oh) :
    (letterboxScaled ow oh tw th).2 ≤ th :=
  scaledDim_le_of oh th _ (scaleFit_h_le ow oh tw th hoh)

theorem smartFillScaled_w_le (ow oh tw th : Nat) (how : 0 < ow) :
    (smartFillScaled ow oh tw th).1 ≤ tw :=
  scaledDim_le_of ow tw _ (scaleFit_w_le ow oh tw th how)

theorem smartFillScaled_h_le (ow oh tw th : Nat) (hoh : 0 < oh) :
    (smartFillScaled ow oh tw th).2 ≤ th :=
  scaledDim_le_of oh th _ (scaleFit_h_le ow oh tw th hoh)

theorem cropScaled_w_ge (ow oh tw th : Nat) (how : 0 < ow) :
    tw ≤ (cropScaled ow oh tw th).1 :=
  le_scaledDim_of ow tw _ (scaleCover_w_ge ow oh tw th how)

theorem cropScaled_h_ge (ow oh tw th : Nat) (hoh : 0 < oh) :
    th ≤ (cropScaled ow oh tw th).2 :=
  le_scaledDim_of oh th _ (scaleCover_h_ge ow oh tw th hoh)

/- ------------------------------------------------------------------ -/
/- Lemmas about reflect-101 border interpolation.                      -/
/- ------------------------------------------------------------------ -/

theorem reflect101_inRange (n x : Nat) (h : x < n) :
    reflect101 n (x : Int) = x := by
  unfold reflect101
  by_cases h1 : n ≤ 1
  · rw [if_pos h1]
    omega
  · have h3 : ((x : Int) % (2 * (n : Int) - 2)) = (x : Int) :=
      Int.emod_eq_of_lt (by positivity) (by omega)
    rw [if_neg h1, h3, Int.toNat_natCast, if_pos h]

theorem reflect101_neg_one (n : Nat) (h : 2 ≤ n) :
    reflect101 n (-1) = 1 := by
  unfold reflect101
  rw [if_neg (by omega)]
  have e1 : (-1 : Int) = (2 * (n : Int) - 3) + (2 * (n : Int) - 2) * (-1) := by
    ring
  rw [e1, Int.add_mul_emod_self_left,
    Int.emod_eq_of_lt (by omega) (by omega)]
  split <;> omega

theorem reflect101_at_n (n : Nat) (h : 2 ≤ n) :
    reflect101 n (n : Int) = n - 2 := by
  by_cases h2 : n = 2
  · subst h2
    decide
  · unfold reflect101
    rw [if_neg (by omega),
      Int.emod_eq_of_lt (by positivity) (by omega)]
    split <;> omega

theorem Img.eqv_refl {α : Type} (a : Img α) : a.eqv a :=
  ⟨rfl, rfl, fun _ _ _ _ => rfl⟩

/- ------------------------------------------------------------------ -/
/- The concrete nearest-neighbour resizer satisfies the capability laws. -/
/- ------------------------------------------------------------------ -/

theorem resizeNearest_dims : ∀ (g : Filter) (im : Img Pix) (a b : Nat),
    (resizeNearest g im a b).width = a ∧ (resizeNearest g im a b).height = b := by
  intro g im a b
  unfold resizeNearest
  split
  · rename_i hcond
    exact ⟨hcond.1.symm, hcond.2.symm⟩
  · exact ⟨rfl, rfl⟩

theorem resizeNearest_id : ∀ (g : Filter) (im : Img Pix),
    resizeNearest g im im.width im.height = im := by
  intro g im
  unfold resizeNearest
  rw [if_pos ⟨rfl, rfl⟩]

/-- Claim C6: for every source image and target dimensions, the scaled
content dimensions computed by the Letterbox strategy and by the
SmartFill strategy are equal (the two functions run the same three
scaling lines). -/
theorem c6_scaled_dims_equal (ow oh tw th : Nat) :
    letterboxScaled ow oh tw th = smartFillScaled ow oh tw th := rfl

/-- Claim C5: the CenterCrop output dimensions exactly equal the target
dimensions, and the centered crop window — origin
`((scaled_w - target_w)//2, (scaled_h - target_h)//2)`, extent
`target_w × target_h` — lies fully inside the scaled image, so every
output pixel is read from the scaled content (no padding). -/
theorem c5_center_crop (R : Resizer) (f : Filter) (img : Img Pix)
    (tw th : Nat)
    (hR : ∀ (g : Filter) (im : Img Pix) (a b : Nat),
      (R g im a b).width = a ∧ (R g im a b).height = b)
    (how : 0 < img.width) (hoh : 0 < img.height) :
    ∀ nw nh : Nat,
      nw = (cropScaled img.width img.height tw th).1 →
      nh = (cropScaled img.width img.height tw th).2 →
      (resize_crop R f img tw th).width = tw ∧
      (resize_crop R f img tw th).height = th ∧
      (R f img nw nh).width = nw ∧ (R f img nw nh).height = nh ∧
      (nw - tw) / 2 + tw ≤ nw ∧ (nh - th) / 2 + th ≤ nh ∧
      (∀ x y : Nat, x < tw → y < th →
        (resize_crop R f img tw th).pix x y =
          (R f img nw nh).pix (x + (nw - tw) / 2) (y + (nh - th) / 2)) := by
  intro nw nh hnw hnh
  subst hnw
  subst hnh
  have hw := cropScaled_w_ge img.width img.height tw th how
  have hh := cropScaled_h_ge img.width img.height tw th hoh
  refine ⟨rfl, rfl, (hR _ _ _ _).1, (hR _ _ _ _).2, by omega, by omega, ?_⟩
  intro x y _ _
  rfl

/-- Witness for C5: the spec scenario — a 100×50 source, multiple 16,
target 112×64; the scaled-to-cover image is 128×64 and the crop window
starts at `(8, 0)`. -/
theorem c5_center_crop_witness :
    0 < white10050.width ∧ 0 < white10050.height ∧
    (128 : Nat) = (cropScaled white10050.width white10050.height 112 64).1 ∧
    (64 : Nat) = (cropScaled white10050.width white10050.height 112 64).2 ∧
    ((resize_crop resizeNearest Filter.lanczos white10050 112 64).width = 112 ∧
     (resize_crop resizeNearest Filter.lanczos white10050 112 64).height = 64 ∧
     (resizeNearest Filter.lanczos white10050 128 64).width = 128 ∧
     (resizeNearest Filter.lanczos white10050 128 64).height = 64 ∧
     (128 - 112) / 2 + 112 ≤ 128 ∧ (64 - 64) / 2 + 64 ≤ 64 ∧
     (∀ x y : Nat, x < 112 → y < 64 →
       (resize_crop resizeNearest Filter.lanczos white10050 112 64).pix x y =
         (resizeNearest Filter.lanczos white10050 128 64).pix
           (x + (128 - 112) / 2) (y + (64 - 64) / 2))) :=
  ⟨by decide, by decide, by
    show (128 : Nat) = (cropScaled 100 50 112 64).1
    unfold cropScaled scaledDim scaleCover
    rw [max_def]
    norm_num
    rfl, by
    show (64 : Nat) = (cropScaled 100 50 112 64).2
    unfold cropScaled scaledDim scaleCover
    rw [max_def]
    norm_num
    rfl,
    c5_center_crop resizeNearest Filter.lanczos white10050 112 64
      resizeNearest_dims (by decide) (by decide) 128 64
      (by
        show (128 : Nat) = (cropScaled 100 50 112 64).1
        unfold cropScaled scaledDim scaleCover
        rw [max_def]
        norm_num
        rfl)
      (by
        show (64 : Nat) = (cropScaled 100 50 112 64).2
        unfold cropScaled scaledDim scaleCover
        rw [max_def]
        norm_num
        rfl)⟩

/- ------------------------------------------------------------------ -/
/- Pixel-level behaviour of the reflect-101 border operation.          -/
/- ------------------------------------------------------------------ -/

theorem copyMakeBorder_pix_content (src : Img Pix) (t b l r x y : Nat)
    (hx1 : l ≤ x) (hx2 : x < l + src.width)
    (hy1 : t ≤ y) (hy2 : y < t + src.height) :
    (copyMakeBorder src t b l r).pix x y = src.pix (x - l) (y - t) := by
  unfold copyMakeBorder
  dsimp only
  have e1 : ((x : Int) - (l : Int)) = ((x - l : Nat) : Int) := by omega
  have e2 : ((y : Int) - (t : Int)) = ((y - t : Nat) : Int) := by omega
  rw [e1, e2, reflect101_inRange _ _ (by omega), reflect101_inRange _ _ (by omega)]

theorem copyMakeBorder_pix_top (src : Img Pix) (t b l r x : Nat)
    (hh : 2 ≤ src.height) (ht : 1 ≤ t)
    (hx1 : l ≤ x) (hx2 : x < l + src.width) :
    (copyMakeBorder src t b l r).pix x (t - 1) = src.pix (x - l) 1 := by
  unfold copyMakeBorder
  dsimp only
  have e1 : ((x : Int) - (l : Int)) = ((x - l : Nat) : Int) := by omega
  have e2 : (((t - 1 : Nat) : Int) - (t : Int)) = -1 := by omega
  rw [e1, e2, reflect101_inRange _ _ (by omega), reflect101_neg_one _ hh]

theorem copyMakeBorder_pix_bottom (src : Img Pix) (t b l r x : Nat)
    (hh : 2 ≤ src.height)
    (hx1 : l ≤ x) (hx2 : x < l + src.width) :
    (copyMakeBorder src t b l r).pix x (t + src.height) =
      src.pix (x - l) (src.height - 2) := by
  unfold copyMakeBorder
  dsimp only
  have e1 : ((x : Int) - (l : Int)) = ((x - l : Nat) : Int) := by omega
  have e2 : (((t + src.height : Nat) : Int) - (t : Int)) = (src.height : Int) := by
    omega
  rw [e1, e2, reflect101_inRange _ _ (by omega), reflect101_at_n _ hh]

theorem copyMakeBorder_pix_left (src : Img Pix) (t b l r y : Nat)
    (hw : 2 ≤ src.width) (hl : 1 ≤ l)
    (hy1 : t ≤ y) (hy2 : y < t + src.height) :
    (copyMakeBorder src t b l r).pix (l - 1) y = src.pix 1 (y - t) := by
  unfold copyMakeBorder
  dsimp only
  have e1 : (((l - 1 : Nat) : Int) - (l : Int)) = -1 := by omega
  have e2 : ((y : Int) - (t : Int)) = ((y - t : Nat) : Int) := by omega
  rw [e1, e2, reflect101_neg_one _ hw, reflect101_inRange _ _ (by omega)]

theorem copyMakeBorder_pix_right (src : Img Pix) (t b l r y : Nat)
    (hw : 2 ≤ src.width)
    (hy1 : t ≤ y) (hy2 : y < t + src.height) :
    (copyMakeBorder src t b l r).pix (l + src.width) y =
      src.pix (src.width - 2) (y - t) := by
  unfold copyMakeBorder
  dsimp only
  have e1 : (((l + src.width : Nat) : Int) - (l : Int)) = (src.width : Int) := by
    omega
  have e2 : ((y : Int) - (t : Int)) = ((y - t : Nat) : Int) := by omega
  rw [e1, e2, reflect101_at_n _ hw, reflect101_inRange _ _ (by omega)]

/-- Claim C3: when the scaled content is strictly smaller than the target on
an axis, SmartFill pads by `top = pad_h//2`, `bottom = pad_h - top`,
`left = pad_w//2`, `right = pad_w - left`, placing the scaled content at
offset `(left, top)` in a `target_w × target_h` output, and fills the border
by reflect-101 mirroring: whenever the "second pixel inward" exists (content
at least two pixels deep on that axis), the pixel immediately outside the
scaled content equals that second pixel inward, not the edge pixel. -/
theorem c3_smart_fill_border (R : Resizer) (f : Filter) (img : Img Pix)
    (tw th : Nat)
    (hR : ∀ (g : Filter) (im : Img Pix) (a b : Nat),
      (R g im a b).width = a ∧ (R g im a b).height = b)
    (how : 0 < img.width) (hoh : 0 < img.height) :
    ∀ nw nh topPad leftPad : Nat,
      nw = (smartFillScaled img.width img.height tw th).1 →
      nh = (smartFillScaled img.width img.height tw th).2 →
      topPad = (th - nh) / 2 →
      leftPad = (tw - nw) / 2 →
      (resize_smart_fill R f img tw th).width = tw ∧
      (resize_smart_fill R f img tw th).height = th ∧
      (∀ x y : Nat, leftPad ≤ x → x < leftPad + nw → topPad ≤ y → y < topPad + nh →
        (resize_smart_fill R f img tw th).pix x y =
          (R f img nw nh).pix (x - leftPad) (y - topPad)) ∧
      (2 ≤ nh → ∀ x : Nat, leftPad ≤ x → x < leftPad + nw →
        (1 ≤ topPad →
          (resize_smart_fill R f img tw th).pix x (topPad - 1) =
            (R f img nw nh).pix (x - leftPad) 1) ∧
        (nh < th →
          (resize_smart_fill R f img tw th).pix x (topPad + nh) =
            (R f img nw nh).pix (x - leftPad) (nh - 2))) ∧
      (2 ≤ nw → ∀ y : Nat, topPad ≤ y → y < topPad + nh →
        (1 ≤ leftPad →
          (resize_smart_fill R f img tw th).pix (leftPad - 1) y =
            (R f img nw nh).pix 1 (y - topPad)) ∧
        (nw < tw →
          (resize_smart_fill R f img tw th).pix (leftPad + nw) y =
            (R f img nw nh).pix (nw - 2) (y - topPad))) := by
  intro nw nh topPad leftPad hnw hnh htop hleft
  have hnw_le : nw ≤ tw := by
    rw [hnw]
    exact smartFillScaled_w_le img.width img.height tw th how
  have hnh_le : nh ≤ th := by
    rw [hnh]
    exact smartFillScaled_h_le img.width img.height tw th hoh
  have hrw : (R f img nw nh).width = nw := (hR f img nw nh).1
  have hrh : (R f img nw nh).height = nh := (hR f img nw nh).2
  have hsf : resize_smart_fill R f img tw th =
      copyMakeBorder (R f img nw nh) topPad ((th - nh) - topPad)
        leftPad ((tw - nw) - leftPad) := by
    unfold resize_smart_fill
    rw [← hnw, ← hnh, ← htop, ← hleft]
  rw [hsf]
  refine ⟨?_, ?_, ?_, ?_, ?_⟩
  · unfold copyMakeBorder
    dsimp only
    rw [hrw]
    omega
  · unfold copyMakeBorder
    dsimp only
    rw [hrh]
    omega
  · intro x y hx1 hx2 hy1 hy2
    exact copyMakeBorder_pix_content _ _ _ _ _ _ _
      (by omega) (by rw [hrw]; omega) (by omega) (by rw [hrh]; omega)
  · intro h2 x hx1 hx2
    constructor
    · intro ht
      exact copyMakeBorder_pix_top _ _ _ _ _ _
        (by rw [hrh]; omega) ht (by omega) (by rw [hrw]; omega)
    · intro _
      have := copyMakeBorder_pix_bottom (R f img nw nh) topPad
        ((th - nh) - topPad) leftPad ((tw - nw) - leftPad) x
        (by rw [hrh]; omega) (by omega) (by rw [hrw]; omega)
      rw [hrh] at this
      exact this
  · intro h2 y hy1 hy2
    constructor
    · intro hl
      exact copyMakeBorder_pix_left _ _ _ _ _ _
        (by rw [hrw]; omega) hl (by omega) (by rw [hrh]; omega)
    · intro _
      have := copyMakeBorder_pix_right (R f img nw nh) topPad
        ((th - nh) - topPad) leftPad ((tw - nw) - leftPad) y
        (by rw [hrw]; omega) (by omega) (by rw [hrh]; omega)
      rw [hrw] at this
      exact this

/-- Witness for C3: a 3×3 source into a 4×8 target scales to 4×4 content
with a 2-pixel top pad, so row 1 of the output mirrors content row 1 and
row 6 mirrors content row 2. -/
theorem c3_smart_fill_border_witness :
    0 < rows33.width ∧ 0 < rows33.height ∧
    ((resize_smart_fill resizeNearest Filter.lanczos rows33 4 8).width = 4 ∧
     (resize_smart_fill resizeNearest Filter.lanczos rows33 4 8).height = 8 ∧
     (∀ x y : Nat, 0 ≤ x → x < 0 + 4 → 2 ≤ y → y < 2 + 4 →
       (resize_smart_fill resizeNearest Filter.lanczos rows33 4 8).pix x y =
         (resizeNearest Filter.lanczos rows33 4 4).pix (x - 0) (y - 2)) ∧
     (2 ≤ 4 → ∀ x : Nat, 0 ≤ x → x < 0 + 4 →
       (1 ≤ 2 →
         (resize_smart_fill resizeNearest Filter.lanczos rows33 4 8).pix x (2 - 1) =
           (resizeNearest Filter.lanczos rows33 4 4).pix (x - 0) 1) ∧
       (4 < 8 →
         (resize_smart_fill resizeNearest Filter.lanczos rows33 4 8).pix x (2 + 4) =
           (resizeNearest Filter.lanczos rows33 4 4).pix (x - 0) (4 - 2))) ∧
     (2 ≤ 4 → ∀ y : Nat, 2 ≤ y → y < 2 + 4 →
       (1 ≤ 0 →
         (resize_smart_fill resizeNearest Filter.lanczos rows33 4 8).pix (0 - 1) y =
           (resizeNearest Filter.lanczos rows33 4 4).pix 1 (y - 2)) ∧
       (4 < 4 →
         (resize_smart_fill resizeNearest Filter.lanczos rows33 4 8).pix (0 + 4) y =
           (resizeNearest Filter.lanczos rows33 4 4).pix (4 - 2) (y - 2)))) :=
  ⟨by decide, by decide,
    c3_smart_fill_border resizeNearest Filter.lanczos rows33 4 8
      resizeNearest_dims (by decide) (by decide) 4 4 2 0
      (by
        show (4 : Nat) = (smartFillScaled 3 3 4 8).1
        unfold smartFillScaled scaledDim scaleFit
        rw [min_def]
        norm_num
        rfl)
      (by
        show (4 : Nat) = (smartFillScaled 3 3 4 8).2
        unfold smartFillScaled scaledDim scaleFit
        rw [min_def]
        norm_num
        rfl)
      (by norm_num)
      (by norm_num)⟩

/-- A concrete 2×2 8-bit image with four distinct pixels, dimensions
already multiples of 2. -/
def gray22 : Img Pix :=
  { width := 2, height := 2, pix := fun x y => fun _ => Fin.ofNat (x + 2 * y) }

/-- Claim C7: an image already at the exact target dimensions (both
multiples of the rounding multiple, so the computed target is the source
size itself) passes through each of the four strategies unchanged. -/
theorem c7_idempotent (R : Resizer) (f : Filter) (img : Img Pix) (m : Nat)
    (hRid : ∀ (g : Filter) (im : Img Pix), R g im im.width im.height = im)
    (hm : 0 < m) (hw : 0 < img.width) (hh : 0 < img.height)
    (hwm : img.width % m = 0) (hhm : img.height % m = 0) :
    calculate_target_dimensions img.width img.height m =
      (img.width, img.height) ∧
    Img.eqv (resize_fill R f img img.width img.height) img ∧
    Img.eqv (resize_letterbox R f img img.width img.height) img ∧
    Img.eqv (resize_crop R f img img.width img.height) img ∧
    Img.eqv (resize_smart_fill R f img img.width img.height) img := by
  have htw : round_to_multiple img.width m = img.width :=
    round_to_multiple_noop _ _ hm hwm
  have hth : round_to_multiple img.height m = img.height :=
    round_to_multiple_noop _ _ hm hhm
  have hsfit : scaleFit img.width img.height img.width img.height = 1 :=
    scaleFit_self _ _ hw hh
  have hscov : scaleCover img.width img.height img.width img.height = 1 :=
    scaleCover_self _ _ hw hh
  have hlb : letterboxScaled img.width img.height img.width img.height =
      (img.width, img.height) := by
    unfold letterboxScaled
    rw [hsfit, scaledDim_one, scaledDim_one]
  have hsfs : smartFillScaled img.width img.height img.width img.height =
      (img.width, img.height) := by
    unfold smartFillScaled
    rw [hsfit, scaledDim_one, scaledDim_one]
  have hcs : cropScaled img.width img.height img.width img.height =
      (img.width, img.height) := by
    unfold cropScaled
    rw [hscov, scaledDim_one, scaledDim_one]
  have hres : R f img img.width img.height = img := hRid f img
  refine ⟨?_, ?_, ?_, ?_, ?_⟩
  · unfold calculate_target_dimensions
    rw [htw, hth]
  · show Img.eqv (R f img img.width img.height) img
    rw [hres]
    exact Img.eqv_refl img
  · have e : resize_letterbox R f img img.width img.height =
        pasteCenter img.width img.height img 0 0 := by
      unfold resize_letterbox
      rw [hlb]
      dsimp only
      simp only [Nat.sub_self, Nat.zero_div]
      rw [hres]
    rw [e]
    refine ⟨rfl, rfl, ?_⟩
    intro x hx y hy
    have hx2 : x < img.width := hx
    have hy2 : y < img.height := hy
    unfold pasteCenter
    dsimp only
    rw [if_pos ⟨Nat.zero_le x, by omega, Nat.zero_le y, by omega⟩,
      Nat.sub_zero, Nat.sub_zero]
  · have e : resize_crop R f img img.width img.height =
        cropRegion img 0 0 img.width img.height := by
      unfold resize_crop
      rw [hcs]
      dsimp only
      simp only [Nat.sub_self, Nat.zero_div]
      rw [hres]
    rw [e]
    refine ⟨rfl, rfl, ?_⟩
    intro x hx y hy
    unfold cropRegion
    dsimp only
    rw [Nat.add_zero, Nat.add_zero]
  · have e : resize_smart_fill R f img img.width img.height =
        copyMakeBorder img 0 0 0 0 := by
      unfold resize_smart_fill
      rw [hsfs]
      dsimp only
      simp only [Nat.sub_self, Nat.zero_div]
      rw [hres]
    rw [e]
    refine ⟨?_, ?_, ?_⟩
    · show 0 + img.width + 0 = img.width
      omega
    · show 0 + img.height + 0 = img.height
      omega
    · intro x hx y hy
      have hx2 : x < 0 + img.width + 0 := hx
      have hy2 : y < 0 + img.height + 0 := hy
      have h1 := copyMakeBorder_pix_content img 0 0 0 0 x y
        (Nat.zero_le x) (by omega) (Nat.zero_le y) (by omega)
      rw [Nat.sub_zero, Nat.sub_zero] at h1
      exact h1

/-- Witness for C7 at a 2×2 image with multiple 2. -/
theorem c7_idempotent_witness :
    0 < 2 ∧ (2 : Nat) % 2 = 0 ∧
    (calculate_target_dimensions 2 2 2 = (2, 2) ∧
     Img.eqv (resize_fill resizeNearest Filter.lanczos gray22 2 2) gray22 ∧
     Img.eqv (resize_letterbox resizeNearest Filter.lanczos gray22 2 2) gray22 ∧
     Img.eqv (resize_crop resizeNearest Filter.lanczos gray22 2 2) gray22 ∧
     Img.eqv (resize_smart_fill resizeNearest Filter.lanczos gray22 2 2) gray22) :=
  ⟨by decide, by decide,
    c7_idempotent resizeNearest Filter.lanczos gray22 2 resizeNearest_id
      (by decide) (by decide) (by decide) (by decide) (by decide)⟩

/- ------------------------------------------------------------------ -/
/- C4: letterbox geometry (scaled size is truncated, not rounded).     -/
/- ------------------------------------------------------------------ -/

theorem letterboxScaled_5_3_6_4 : letterboxScaled 5 3 6 4 = (6, 3) := by
  unfold letterboxScaled scaledDim scaleFit
  rw [min_def]
  norm_num
  exact ⟨rfl, rfl⟩

/-- Claim C4, counterexample: for a 5×3 source with multiple 2 the target
is 6×4 and the fit scale is 6/5; the code truncates `3 * 6/5 = 3.6` to a
scaled height of 3, while the claim's `round(src_h*s)` gives 4 — and the
output's bottom row at `y = 3` is black background rather than pasted
content, which a 6×4 scaled image pasted at offset `(0, 0)` would forbid. -/
theorem c4_letterbox_counterexample :
    round_to_multiple 5 2 = 6 ∧ round_to_multiple 3 2 = 4 ∧
    letterboxScaled 5 3 6 4 = (6, 3) ∧
    (letterboxScaledSpec 5 3 6 4).2 = 4 ∧
    ((letterboxScaled 5 3 6 4).2 : ℤ) ≠ (letterboxScaledSpec 5 3 6 4).2 ∧
    (resize_letterbox resizeNearest Filter.lanczos white53 6 4).pix 2 3 =
      black ∧
    white53.pix 2 2 ≠ black := by
  have h1 : round_to_multiple 5 2 = 6 := by
    unfold round_to_multiple
    rw [ceil_as_neg_floor]
    norm_num
    rfl
  have h2 : round_to_multiple 3 2 = 4 := by
    unfold round_to_multiple
    rw [ceil_as_neg_floor]
    norm_num
    rfl
  have h4 : (letterboxScaledSpec 5 3 6 4).2 = 4 := by
    unfold letterboxScaledSpec scaleFit
    dsimp only
    rw [min_def, round_eq]
    norm_num
  refine ⟨h1, h2, letterboxScaled_5_3_6_4, h4, ?_, ?_, by decide⟩
  · rw [letterboxScaled_5_3_6_4, h4]
    decide
  · show (pasteCenter 6 4
      (resizeNearest Filter.lanczos white53 (letterboxScaled 5 3 6 4).1
        (letterboxScaled 5 3 6 4).2)
      ((6 - (letterboxScaled 5 3 6 4).1) / 2)
      ((4 - (letterboxScaled 5 3 6 4).2) / 2)).pix 2 3 = black
    rw [letterboxScaled_5_3_6_4]
    decide

/-- Claim C4 as amended: Letterbox scales by
`s = min(target_w/src_w, target_h/src_h)`, produces a scaled image of size
`(int(src_w*s), int(src_h*s))` — truncating toward zero, not rounding —
and pastes it onto a black target-sized canvas at offset
`((target_w - scaled_w)//2, (target_h - scaled_h)//2)`, so any residual
odd pixel of padding accrues to the right/bottom edge. -/
theorem c4_letterbox (R : Resizer) (f : Filter) (img : Img Pix)
    (tw th : Nat)
    (hR : ∀ (g : Filter) (im : Img Pix) (a b : Nat),
      (R g im a b).width = a ∧ (R g im a b).height = b) :
    ∀ nw nh : Nat,
      nw = (letterboxScaled img.width img.height tw th).1 →
      nh = (letterboxScaled img.width img.height tw th).2 →
      nw = (⌊(img.width : ℚ) *
        min ((tw : ℚ) / (img.width : ℚ)) ((th : ℚ) / (img.height : ℚ))⌋).toNat ∧
      nh = (⌊(img.height : ℚ) *
        min ((tw : ℚ) / (img.width : ℚ)) ((th : ℚ) / (img.height : ℚ))⌋).toNat ∧
      (resize_letterbox R f img tw th).width = tw ∧
      (resize_letterbox R f img tw th).height = th ∧
      (∀ x y : Nat,
        (resize_letterbox R f img tw th).pix x y =
          if (tw - nw) / 2 ≤ x ∧ x < (tw - nw) / 2 + nw ∧
             (th - nh) / 2 ≤ y ∧ y < (th - nh) / 2 + nh
          then (R f img nw nh).pix (x - (tw - nw) / 2) (y - (th - nh) / 2)
          else black) := by
  intro nw nh hnw hnh
  refine ⟨hnw, hnh, rfl, rfl, ?_⟩
  intro x y
  unfold resize_letterbox pasteCenter
  dsimp only
  rw [← hnw, ← hnh, (hR f img nw nh).1, (hR f img nw nh).2]

theorem letterboxScaled_100_50_112_64 :
    letterboxScaled 100 50 112 64 = (112, 56) := by
  unfold letterboxScaled scaledDim scaleFit
  rw [min_def]
  norm_num
  exact ⟨rfl, rfl⟩

/-- Witness for C4 at the spec scenario: 100×50 source, 112×64 target,
scaled content 112×56 pasted at `(0, 4)`. -/
theorem c4_letterbox_witness :
    (112 : Nat) = (letterboxScaled white10050.width white10050.height 112 64).1 ∧
    (56 : Nat) = (letterboxScaled white10050.width white10050.height 112 64).2 ∧
    ((112 : Nat) = (⌊(white10050.width : ℚ) *
        min ((112 : ℚ) / (white10050.width : ℚ))
          ((64 : ℚ) / (white10050.height : ℚ))⌋).toNat ∧
     (56 : Nat) = (⌊(white10050.height : ℚ) *
        min ((112 : ℚ) / (white10050.width : ℚ))
          ((64 : ℚ) / (white10050.height : ℚ))⌋).toNat ∧
     (resize_letterbox resizeNearest Filter.lanczos white10050 112 64).width = 112 ∧
     (resize_letterbox resizeNearest Filter.lanczos white10050 112 64).height = 64 ∧
     (∀ x y : Nat,
        (resize_letterbox resizeNearest Filter.lanczos white10050 112 64).pix x y =
          if (112 - 112) / 2 ≤ x ∧ x < (112 - 112) / 2 + 112 ∧
             (64 - 56) / 2 ≤ y ∧ y < (64 - 56) / 2 + 56
          then (resizeNearest Filter.lanczos white10050 112 56).pix
            (x - (112 - 112) / 2) (y - (64 - 56) / 2)
          else black)) :=
  ⟨by rw [show white10050.width = 100 from rfl, show white10050.height = 50 from rfl,
      letterboxScaled_100_50_112_64],
   by rw [show white10050.width = 100 from rfl, show white10050.height = 50 from rfl,
      letterboxScaled_100_50_112_64],
   c4_letterbox resizeNearest Filter.lanczos white10050 112 64
     resizeNearest_dims 112 56
     (by rw [show white10050.width = 100 from rfl,
        show white10050.height = 50 from rfl, letterboxScaled_100_50_112_64])
     (by rw [show white10050.width = 100 from rfl,
        show white10050.height = 50 from rfl, letterboxScaled_100_50_112_64])⟩

/- ------------------------------------------------------------------ -/
/- The batch loop of resize_image.                                     -/
/- ------------------------------------------------------------------ -/

/-- A concrete 2×1 tensor image with all channels at 1. -/
def qOnes21 : QImg := { width := 2, height := 1, pix := fun _ _ _ => 1 }

/-- A concrete 3×2 tensor image with all channels at 0. -/
def qZeros32 : QImg := { width := 3, height := 2, pix := fun _ _ _ => 0 }

theorem dispatchFit_valid (R : Resizer) (fit : String) (f : Filter)
    (img : Img Pix) (tw th : Nat) (hfit : fit ∈ allowedFits) :
    dispatchFit R fit f img tw th = some (applyFit R fit f img tw th) := by
  unfold dispatchFit
  rw [if_pos]
  simp only [allowedFits, List.mem_cons, List.not_mem_nil, or_false] at hfit
  tauto

theorem dispatchFit_invalid (R : Resizer) (fit : String) (f : Filter)
    (img : Img Pix) (tw th : Nat) (hfit : fit ∉ allowedFits) :
    dispatchFit R fit f img tw th = none := by
  unfold dispatchFit
  rw [if_neg]
  intro h
  apply hfit
  simp only [allowedFits, List.mem_cons, List.not_mem_nil, or_false]
  tauto

theorem foldl_stepImg_none (R : Resizer) (fit method : String) (m : Nat)
    (l : List QImg) :
    l.foldl (stepImg R fit method m) none = none := by
  induction l with
  | nil => rfl
  | cons a t ih => exact ih

theorem stepImg_some (R : Resizer) (fit method : String) (m : Nat)
    (hfit : fit ∈ allowedFits) (acc : List QImg) (d : Nat × Nat) (img : QImg) :
    stepImg R fit method m (some (acc, d)) img =
      some (acc ++ [oneImg R fit method m img], targetDims m img) := by
  unfold stepImg
  show (dispatchFit R fit (get_resampling_method method) (toU8img img)
      (calculate_target_dimensions (toU8img img).width (toU8img img).height m).1
      (calculate_target_dimensions (toU8img img).width (toU8img img).height m).2).map
      _ = _
  rw [dispatchFit_valid R fit _ _ _ _ hfit]
  rfl

theorem foldl_stepImg (R : Resizer) (fit method : String) (m : Nat)
    (hfit : fit ∈ allowedFits) :
    ∀ (l : List QImg) (acc : List QImg) (d : Nat × Nat),
      l.foldl (stepImg R fit method m) (some (acc, d)) =
        some (acc ++ l.map (oneImg R fit method m),
          l.foldl (fun _ i => targetDims m i) d) := by
  intro l
  induction l with
  | nil =>
    intro acc d
    simp
  | cons a t ih =>
    intro acc d
    rw [List.foldl_cons, stepImg_some R fit method m hfit acc d a, ih,
      List.foldl_cons, List.map_cons]
    simp

theorem foldl_const_getLast {α β : Type} (f : α → β) :
    ∀ (l : List α) (hne : l ≠ []) (d : β),
      l.foldl (fun _ i => f i) d = f (l.getLast hne) := by
  intro l
  induction l with
  | nil => intro hne; exact absurd rfl hne
  | cons a t ih =>
    intro hne d
    cases t with
    | nil => rfl
    | cons b t2 =>
      rw [List.foldl_cons]
      exact ih (List.cons_ne_nil b t2) (f a)

/-- The net effect of the batch loop for a recognized fit mode: one output
per input in order, and the returned dimensions are the last image's target. -/
theorem resize_image_spec (R : Resizer) (fit method : String) (m : Nat)
    (hfit : fit ∈ allowedFits) (imgs : List QImg) (hne : imgs ≠ []) :
    resize_image R imgs fit method m =
      some (imgs.map (oneImg R fit method m),
        targetDims m (imgs.getLast hne)) := by
  cases imgs with
  | nil => exact absurd rfl hne
  | cons a t =>
    show (a :: t).foldl (stepImg R fit method m) (some ([], 0, 0)) = _
    rw [foldl_stepImg R fit method m hfit (a :: t) [] (0, 0),
      foldl_const_getLast (targetDims m) (a :: t) hne (0, 0)]
    simp

/-- Claim C2, counterexample: `"gaussian"` is not a recognized method, yet
the call succeeds and `get_resampling_method` silently falls back to the
Lanczos filter instead of failing. -/
theorem c2_counterexample :
    "gaussian" ∉ allowedMethods ∧
    get_resampling_method "gaussian" = Filter.lanczos ∧
    (resize_image resizeNearest [qHalf11] "letterbox" "gaussian" 2).isSome =
      true :=
  ⟨by decide, rfl, rfl⟩

/-- Claim C2 as amended: an unrecognized fit value makes the whole call
fail with no output (the dispatch assigns no result), but an unrecognized
method value does not fail — `get_resampling_method` silently falls back
to the Lanczos filter. -/
theorem c2_error_handling (R : Resizer) (imgs : List QImg)
    (fit method : String) (m : Nat) (hfit : fit ∉ allowedFits) :
    resize_image R imgs fit method m = none ∧
    (method ∉ allowedMethods → get_resampling_method method = Filter.lanczos) := by
  constructor
  · cases imgs with
    | nil => rfl
    | cons a t =>
      show (a :: t).foldl (stepImg R fit method m) (some ([], 0, 0)) = none
      rw [List.foldl_cons]
      have h1 : stepImg R fit method m (some ([], 0, 0)) a = none := by
        unfold stepImg
        show (dispatchFit R fit (get_resampling_method method) (toU8img a)
            (calculate_target_dimensions (toU8img a).width (toU8img a).height m).1
            (calculate_target_dimensions (toU8img a).width (toU8img a).height m).2).map
            _ = _
        rw [dispatchFit_invalid R fit _ _ _ _ hfit]
        rfl
      rw [h1]
      exact foldl_stepImg_none R fit method m t
  · intro hmethod
    simp only [allowedMethods, List.mem_cons, List.not_mem_nil, or_false,
      not_or] at hmethod
    obtain ⟨n1, n2, n3, n4, n5, n6⟩ := hmethod
    unfold get_resampling_method method_map
    simp only [List.lookup, beq_eq_false_iff_ne.mpr n1,
      beq_eq_false_iff_ne.mpr n2, beq_eq_false_iff_ne.mpr n3,
      beq_eq_false_iff_ne.mpr n4, beq_eq_false_iff_ne.mpr n5,
      beq_eq_false_iff_ne.mpr n6, Option.getD_none]

/-- Witness for C2 (amended) at the unrecognized strings
`fit = "stretch"`, `method = "gaussian"`. -/
theorem c2_error_handling_witness :
    "stretch" ∉ allowedFits ∧
    (resize_image resizeNearest [qHalf11] "stretch" "gaussian" 2 = none ∧
     ("gaussian" ∉ allowedMethods →
       get_resampling_method "gaussian" = Filter.lanczos)) :=
  ⟨by decide,
    c2_error_handling resizeNearest [qHalf11] "stretch" "gaussian" 2 (by decide)⟩

/-- Claim C8: for a non-empty batch and a recognized configuration the
output batch has the same length as the input batch, in order: the i-th
output is the normalization of the i-th input. -/
theorem c8_batch_invariant (R : Resizer) (imgs : List QImg)
    (fit method : String) (m : Nat)
    (hne : imgs ≠ []) (hfit : fit ∈ allowedFits) (_hm : m ∈ allowedMultiples) :
    ∃ (out : List QImg) (w h : Nat),
      resize_image R imgs fit method m = some (out, w, h) ∧
      out.length = imgs.length ∧
      ∀ (i : Nat) (hi : i < out.length) (hi2 : i < imgs.length),
        out.get ⟨i, hi⟩ = oneImg R fit method m (imgs.get ⟨i, hi2⟩) := by
  refine ⟨imgs.map (oneImg R fit method m),
    (targetDims m (imgs.getLast hne)).1, (targetDims m (imgs.getLast hne)).2,
    ?_, by simp, ?_⟩
  · rw [resize_image_spec R fit method m hfit imgs hne]
  · intro i hi hi2
    simp [List.get_eq_getElem, List.getElem_map]

/-- Witness for C8 at a two-image batch with smart_fill, lanczos, multiple 2. -/
theorem c8_batch_invariant_witness :
    [qOnes21, qZeros32] ≠ [] ∧ "smart_fill" ∈ allowedFits ∧
    2 ∈ allowedMultiples ∧
    (∃ (out : List QImg) (w h : Nat),
      resize_image resizeNearest [qOnes21, qZeros32] "smart_fill" "lanczos" 2 =
        some (out, w, h) ∧
      out.length = [qOnes21, qZeros32].length ∧
      ∀ (i : Nat) (hi : i < out.length) (hi2 : i < [qOnes21, qZeros32].length),
        out.get ⟨i, hi⟩ =
          oneImg resizeNearest "smart_fill" "lanczos" 2
            ([qOnes21, qZeros32].get ⟨i, hi2⟩)) :=
  ⟨List.cons_ne_nil _ _, by decide, by decide,
    c8_batch_invariant resizeNearest [qOnes21, qZeros32] "smart_fill" "lanczos" 2
      (List.cons_ne_nil _ _) (by decide) (by decide)⟩

/-- Claim C9: for a non-empty batch the returned width and height are the
ceiling-rounded target dimensions of the last image processed. -/
theorem c9_last_image_dims (R : Resizer) (imgs : List QImg)
    (fit method : String) (m : Nat)
    (hne : imgs ≠ []) (hfit : fit ∈ allowedFits) (_hm : m ∈ allowedMultiples) :
    ∃ out : List QImg,
      resize_image R imgs fit method m =
        some (out, round_to_multiple (imgs.getLast hne).width m,
          round_to_multiple (imgs.getLast hne).height m) :=
  ⟨imgs.map (oneImg R fit method m),
    resize_image_spec R fit method m hfit imgs hne⟩

/-- Witness for C9: the dimensions come from the last (3×2) image of the
batch, not the first. -/
theorem c9_last_image_dims_witness :
    [qOnes21, qZeros32] ≠ [] ∧ "letterbox" ∈ allowedFits ∧
    2 ∈ allowedMultiples ∧
    (∃ out : List QImg,
      resize_image resizeNearest [qOnes21, qZeros32] "letterbox" "lanczos" 2 =
        some (out, round_to_multiple qZeros32.width 2,
          round_to_multiple qZeros32.height 2)) :=
  ⟨List.cons_ne_nil _ _, by decide, by decide,
    c9_last_image_dims resizeNearest [qOnes21, qZeros32] "letterbox" "lanczos" 2
      (List.cons_ne_nil _ _) (by decide) (by decide)⟩

/-- Claim C10: every pixel of every output image is `n / 255` for some
byte `n`, hence an exact multiple of `1/255` inside `[0, 1]` — the loop
quantizes each image to 8 bits per channel and divides by 255 on the way
out. -/
theorem c10_output_quantized (R : Resizer) (imgs : List QImg)
    (fit method : String) (m : Nat)
    (hne : imgs ≠ []) (hfit : fit ∈ allowedFits) (_hm : m ∈ allowedMultiples)
    (_hq : ∀ img ∈ imgs, ∀ x, x < img.width → ∀ y, y < img.height →
      ∀ c : Fin 3, 0 ≤ img.pix x y c ∧ img.pix x y c ≤ 1) :
    ∀ (out : List QImg) (w h : Nat),
      resize_image R imgs fit method m = some (out, w, h) →
      ∀ img ∈ out, ∀ x, x < img.width → ∀ y, y < img.height → ∀ c : Fin 3,
        ∃ n : Nat, n ≤ 255 ∧ img.pix x y c = (n : ℚ) / 255 ∧
          0 ≤ img.pix x y c ∧ img.pix x y c ≤ 1 := by
  intro out w h hout img hmem x hx y hy c
  rw [resize_image_spec R fit method m hfit imgs hne] at hout
  have hout2 := Option.some.inj hout
  have hout3 : imgs.map (oneImg R fit method m) = out :=
    congrArg Prod.fst hout2
  rw [← hout3] at hmem
  obtain ⟨src, hsrc, rfl⟩ := List.mem_map.mp hmem
  unfold oneImg fromU8img
  dsimp only
  refine ⟨((applyFit R fit (get_resampling_method method) (toU8img src)
      (calculate_target_dimensions src.width src.height m).1
      (calculate_target_dimensions src.width src.height m).2).pix x y c).val,
    Fin.is_le _, rfl, by positivity, ?_⟩
  rw [div_le_one (by norm_num : (0 : ℚ) < 255)]
  exact_mod_cast Fin.is_le _

/-- Witness for C10 at a two-image batch with values 1 and 0 (both in
`[0, 1]`). -/
theorem c10_output_quantized_witness :
    [qOnes21, qZeros32] ≠ [] ∧ "fill" ∈ allowedFits ∧ 2 ∈ allowedMultiples ∧
    (∀ img ∈ [qOnes21, qZeros32], ∀ x, x < img.width → ∀ y, y < img.height →
      ∀ c : Fin 3, 0 ≤ img.pix x y c ∧ img.pix x y c ≤ 1) ∧
    (∀ (out : List QImg) (w h : Nat),
      resize_image resizeNearest [qOnes21, qZeros32] "fill" "bicubic" 2 =
        some (out, w, h) →
      ∀ img ∈ out, ∀ x, x < img.width → ∀ y, y < img.height → ∀ c : Fin 3,
        ∃ n : Nat, n ≤ 255 ∧ img.pix x y c = (n : ℚ) / 255 ∧
          0 ≤ img.pix x y c ∧ img.pix x y c ≤ 1) :=
  ⟨List.cons_ne_nil _ _, by decide, by decide,
    by
      intro img hmem x hx y hy c
      have h2 : img = qOnes21 ∨ img = qZeros32 := by simpa using hmem
      rcases h2 with rfl | rfl
      · exact ⟨by norm_num [qOnes21], by norm_num [qOnes21]⟩
      · exact ⟨by norm_num [qZeros32], by norm_num [qZeros32]⟩,
    c10_output_quantized resizeNearest [qOnes21, qZeros32] "fill" "bicubic" 2
      (List.cons_ne_nil _ _) (by decide) (by decide)
      (by
        intro img hmem x hx y hy c
        have h2 : img = qOnes21 ∨ img = qZeros32 := by simpa using hmem
        rcases h2 with rfl | rfl
        · exact ⟨by norm_num [qOnes21], by norm_num [qOnes21]⟩
        · exact ⟨by norm_num [qZeros32], by norm_num [qZeros32]⟩)⟩

end ImageResolutionFixer
